import Mathlib

/-!
Verification of the `node-docs.py` documentation extractor

This file gives a shallow embedding of the marker-driven metadata extraction
engine of `node-docs.py` and proves properties of it.

Modelling conventions:

* Python AST nodes are embedded as the inductive `NodeDocs.Expr` /
  `NodeDocs.Stmt`.  Constructor names follow the `ast` class names; where a
  Lean keyword collides we append `E` (`attributeE` for `ast.Attribute`,
  `listE` for `ast.List`, `dictE` for `ast.Dict`, `otherE` for every other
  expression shape the extractor never inspects, e.g. lambdas and binary
  operators).  We model the AST produced by Python >= 3.9 (the versions the
  tool runs on): a subscript's `slice` field holds the expression itself and
  `ast.Index` values are never produced by the parser, although the
  `index` constructor is kept because `_get_type_annotation` still contains
  the Python 3.8 compatibility branch that matches on it.
* Modules arrive pre-parsed: `Source.parsed decls` is a module whose text
  parsed successfully into a list of top-level declarations, and
  `Source.invalid` is a module whose text raised a `SyntaxError` in
  `ast.parse` (parsing itself is external to the extractor, per the
  Syntax Tree Builder contract).  Nested class declarations are not
  modelled; the claims under study concern top-level declarations.
* Python exceptions are embedded with `Except Unit`: the only statement of
  the extraction engine that can raise on a parsed module is the unguarded
  attribute access `item.value.func.value.id` in `_process_invocation`
  (line 244), reached when an `invoke` method returns a call whose target
  is an attribute access whose base is not a simple name.
* `list.sort()` is a stable sort by `NodeInfo.__lt__`
  (`self.title.lower() < other.title.lower()`); it is embedded as
  `List.insertionSort` with the reflexive key order, which is stable and
  produces the unique stable sorted permutation, hence agrees with any
  stable sorting algorithm.
* Python `str.lower` is embedded as `pyLower`, the character-wise
  `Char.toLower` map over the string's characters (equivalent to
  `String.toLower`, but defined by structural recursion); `str.strip` is
  embedded as `String.trim`.  The inputs of interest are ASCII, where
  these agree with Python.
* Field `description` values are stored after stringification (`pyStr`),
  matching what the markdown renderer ultimately displays.
* The dead code of lines 221-228 (`return_type` is computed and never
  used, and cannot raise) is not modelled.
-/

namespace NodeDocs

/-- Payload of an `ast.Constant` node: `None`, booleans, integers and
strings (the constant shapes the scanned files use). -/
inductive Const where
  | noneV
  | boolV (b : Bool)
  | intV (n : Int)
  | strV (s : String)
deriving DecidableEq

/-- Python's `str()` of a constant payload, as interpolated by the
extractor's f-strings. -/
def pyStr : Const → String
  | .noneV => "None"
  | .boolV true => "True"
  | .boolV false => "False"
  | .intV n => toString n
  | .strV s => s

/-- Embedded Python expression AST (`ast.expr`).  `call` carries positional
arguments and keyword arguments (a keyword with `arg = none` is a `**`
splat).  `dictE` mirrors `ast.Dict`'s parallel `keys`/`values` lists, where
a key may be `none` (a `**` splat entry). -/
inductive Expr where
  | name (id : String)
  | attributeE (value : Expr) (attr : String)
  | subscript (value : Expr) (slice : Expr)
  | index (value : Expr)
  | tuple (elts : List Expr)
  | constant (value : Const)
  | listE (elts : List Expr)
  | dictE (keys : List (Option Expr)) (values : List Expr)
  | call (func : Expr) (args : List Expr) (kwargs : List (Option String × Expr))
  | otherE

/-- Embedded Python statement AST, restricted to the statement shapes the
extractor inspects inside class and function bodies: annotated assignments,
bare expression statements (docstrings), function definitions, and `return`
statements; `otherS` stands for every other statement kind. -/
inductive Stmt where
  | annAssign (target : Expr) (annot : Expr) (value : Option Expr)
  | exprStmt (value : Expr)
  | functionDef (nm : String) (decorators : List Expr) (returns : Option Expr)
      (body : List Stmt)
  | ret (value : Option Expr)
  | otherS

/-- An embedded `ast.ClassDef`: name, decorator list, body. -/
structure ClassDef where
  name : String
  decorators : List Expr
  body : List Stmt

/-- A top-level declaration of a module, as visited by the two
`ast.walk` passes of `_process_file`. -/
inductive Decl where
  | classDecl (c : ClassDef)
  | funcDecl (nm : String) (body : List Stmt)
  | otherDecl

/-- A module's top-level declarations, in source order. -/
abbrev Module := List Decl

/-- One module handed to `_process_file`: either its text parsed
successfully, or `ast.parse` raised (`Source.invalid`). -/
inductive Source where
  | parsed (decls : Module)
  | invalid

/-- One entry of an input-field dict built at lines 203-208. -/
structure InputField where
  name : String
  type : String
  description : String
  default : String
deriving DecidableEq, Repr

/-- One entry of an output-definition field dict built at lines 141-145. -/
structure OdefField where
  name : String
  type : String
  description : String
deriving DecidableEq, Repr

/-- The `output` dict of a `NodeInfo` (lines 211, 237-245). -/
structure OutputInfo where
  type : String
  fields : List OdefField
deriving DecidableEq, Repr

/-- The `NodeInfo` record (lines 10-27). -/
structure NodeInfo where
  name : String
  title : String
  description : String
  long_description : String
  category : String
  tags : List String
  version : String
  inputs : List InputField
  output : OutputInfo
deriving DecidableEq, Repr

/-- The `FunctionInfo` record (lines 29-33). -/
structure FunctionInfo where
  name : String
  description : String
deriving DecidableEq, Repr

/-- The `OutputDefinitionInfo` record (lines 35-39). -/
structure OutputDefinitionInfo where
  name : String
  fields : List OdefField
deriving DecidableEq, Repr

/-- The mutable state of a `DocExtractor`: `self.nodes`, `self.functions`
and `self.output_defs` (a Python dict, embedded as an insertion-ordered
association list). -/
structure ExtractorState where
  nodes : List NodeInfo
  functions : List FunctionInfo
  output_defs : List (String × OutputDefinitionInfo)
deriving DecidableEq, Repr

/-- Embeds `", ".join(xs)`. -/
def joinComma (xs : List String) : String := String.intercalate ", " xs

mutual

/-- Embeds `DocExtractor._get_type_annotation` (lines 289-321).  On
Python >= 3.9 the `isinstance(node.slice, ast.Index)` test succeeds only
for a genuine (legacy) `Index` node, which the parser never produces, so a
bare tuple slice reaches the generic tuple branch. -/
def getTypeAnnot : Expr → String
  | .name id => id
  | .subscript value slice =>
    let base := getTypeAnnot value
    match slice with
    | .index sliceValue =>
      match sliceValue with
      | .tuple elts => base ++ "[" ++ joinComma (getTypeAnnotList elts) ++ "]"
      | sv => base ++ "[" ++ getTypeAnnot sv ++ "]"
    | s => base ++ "[" ++ getTypeAnnot s ++ "]"
  | .attributeE value attr => getTypeAnnot value ++ "." ++ attr
  | .constant c => pyStr c
  | .tuple elts => "(" ++ joinComma (getTypeAnnotList elts) ++ ")"
  | .call (.name funcName) args _ =>
    funcName ++ "(" ++ joinComma (getTypeAnnotList args) ++ ")"
  | _ => "Any"

/-- List comprehension helper for `getTypeAnnot`. -/
def getTypeAnnotList : List Expr → List String
  | [] => []
  | e :: es => getTypeAnnot e :: getTypeAnnotList es

end

mutual

/-- Embeds `DocExtractor._get_default_value` (lines 323-340). -/
def getDefaultValue : Expr → String
  | .constant c => pyStr c
  | .name id => id
  | .listE elts => "[" ++ joinComma (getDefaultValueList elts) ++ "]"
  | .dictE keys values =>
    "\x7b" ++
      joinComma (List.zipWith (fun k v => k ++ ": " ++ v)
        (getDefaultValueOptList keys) (getDefaultValueList values)) ++ "\x7d"
  | .call (.name funcName) args _ =>
    funcName ++ "(" ++ joinComma (getDefaultValueList args) ++ ")"
  | _ => "None"

/-- List comprehension helper for `getDefaultValue`. -/
def getDefaultValueList : List Expr → List String
  | [] => []
  | e :: es => getDefaultValue e :: getDefaultValueList es

/-- Dict-keys helper: `_get_default_value(None)` (a splat key) falls
through every `isinstance` test and returns `"None"`. -/
def getDefaultValueOptList : List (Option Expr) → List String
  | [] => []
  | some e :: es => getDefaultValue e :: getDefaultValueOptList es
  | none :: es => "None" :: getDefaultValueOptList es

end

/-- Embeds `DocExtractor._get_string_value` (lines 277-281). -/
def getStringValue : Expr → String
  | .constant (.strV s) => s
  | _ => ""

/-- Embeds `DocExtractor._get_list_values` (lines 283-287). -/
def getListValues : Expr → List String
  | .listE elts => elts.map getStringValue
  | _ => []

/-- The decorator scan shared by `_process_output_definition` (line 124)
and `_process_invocation` (line 153): the first decorator that is a call
whose target is the simple name `markerName`; returns its positional and
keyword arguments. -/
def findMarker (markerName : String) :
    List Expr → Option (List Expr × List (Option String × Expr))
  | [] => none
  | .call (.name f) args kws :: rest =>
    if f = markerName then some (args, kws) else findMarker markerName rest
  | _ :: rest => findMarker markerName rest

/-- The keyword loop of `_process_invocation` (lines 161-169): extract
`title`, `category`, `tags`, `version` from the marker's keyword
arguments; a later duplicate keyword overwrites an earlier one. -/
def scanInvKeywords :
    List (Option String × Expr) → String → String → List String → String →
      String × String × List String × String
  | [], t, c, tg, v => (t, c, tg, v)
  | (arg, val) :: rest, t, c, tg, v =>
    if arg = some "title" then scanInvKeywords rest (getStringValue val) c tg v
    else if arg = some "category" then scanInvKeywords rest t (getStringValue val) tg v
    else if arg = some "tags" then scanInvKeywords rest t c (getListValues val) v
    else if arg = some "version" then scanInvKeywords rest t c tg (getStringValue val)
    else scanInvKeywords rest t c tg v

/-- The keyword loop of `_process_output_definition` (lines 136-138): a
`description` keyword whose value is a constant sets the description. -/
def scanDescrKeywords : List (Option String × Expr) → String → String
  | [], d => d
  | (arg, val) :: rest, d =>
    if arg = some "description" then
      match val with
      | .constant c => scanDescrKeywords rest (pyStr c)
      | _ => scanDescrKeywords rest d
    else scanDescrKeywords rest d

/-- The keyword loop of `_process_invocation`'s input-field extraction
(lines 196-200): `description` as above, plus a `default` keyword rendered
through `_get_default_value`.  The accumulator starts at
`("", "None")` (lines 191-192). -/
def scanInputKeywords :
    List (Option String × Expr) → String × String → String × String
  | [], acc => acc
  | (arg, val) :: rest, (d, df) =>
    if arg = some "description" then
      match val with
      | .constant c => scanInputKeywords rest (pyStr c, df)
      | _ => scanInputKeywords rest (d, df)
    else if arg = some "default" then
      scanInputKeywords rest (d, getDefaultValue val)
    else scanInputKeywords rest (d, df)

/-- The docstring split of `_process_invocation` (lines 172-183): if the
body's first statement is a string-constant expression, strip it and split
once on the first newline into a summary and an extended description. -/
def extractDocstring (body : List Stmt) : String × String :=
  match body with
  | .exprStmt (.constant (.strV s)) :: _ =>
    let d := s.trim
    if d = "" then ("", "")
    else
      match d.splitOn "\n" with
      | [] => ("", "")
      | [first] => (first.trim, "")
      | first :: rest => (first.trim, (String.intercalate "\n" rest).trim)
  | _ => ("", "")

/-- One iteration of the input-field loop of `_process_invocation`
(lines 187-208): an annotated assignment yields an input dict unless its
target is not a simple name. -/
def extractInputField : Stmt → Option InputField
  | .annAssign target annot value =>
    let fieldType := getTypeAnnot annot
    let dd := match value with
      | some (.call _ _ kws) => scanInputKeywords kws ("", "None")
      | _ => ("", "None")
    match target with
    | .name n => some ⟨n, fieldType, dd.1, dd.2⟩
    | _ => none
  | _ => none

/-- The input-field loop over a class body (lines 186-208). -/
def extractInputs (body : List Stmt) : List InputField :=
  body.filterMap extractInputField

/-- One iteration of the field loop of `_process_output_definition`
(lines 128-145). -/
def extractOdefField : Stmt → Option OdefField
  | .annAssign target annot value =>
    let fieldType := getTypeAnnot annot
    let d := match value with
      | some (.call _ _ kws) => scanDescrKeywords kws ""
      | _ => ""
    match target with
    | .name n => some ⟨n, fieldType, d⟩
    | _ => none
  | _ => none

/-- The `invoke`-method search of `_process_invocation` (lines 214-218):
the first function definition in the class body literally named
`invoke`; its body is all the later code uses (the `return_type`
computation at lines 221-228 is dead code). -/
def findInvoke : List Stmt → Option (List Stmt)
  | [] => none
  | .functionDef nm _ _ fb :: rest =>
    if nm = "invoke" then some fb else findInvoke rest
  | _ :: rest => findInvoke rest

/-- Lookup in the embedded `self.output_defs` dict. -/
def dictLookup (d : List (String × OutputDefinitionInfo)) (k : String) :
    Option OutputDefinitionInfo :=
  match d with
  | [] => none
  | (k2, v) :: rest => if k2 = k then some v else dictLookup rest k

/-- Assignment `self.output_defs[name] = v`: a Python dict overwrites the
value of an existing key in place (the key keeps its original position in
enumeration order) and appends a new key at the end. -/
def dictInsert (d : List (String × OutputDefinitionInfo)) (k : String)
    (v : OutputDefinitionInfo) : List (String × OutputDefinitionInfo) :=
  match d with
  | [] => [(k, v)]
  | (k2, v2) :: rest =>
    if k2 = k then (k, v) :: rest else (k2, v2) :: dictInsert rest k v

/-- The body of the return-statement loop of `_process_invocation`
(lines 231-245) for one walked statement.  Only a `return` of a direct
call is inspected; a simple-name target queries the registry, an
attribute-access target with a simple-name base renders the combined
string, and an attribute-access target with any other base raises
`AttributeError` (`item.value.func.value.id`, line 244), embedded as
`.error ()`.  Every other statement leaves `output` unchanged. -/
def returnStep (defs : List (String × OutputDefinitionInfo))
    (out : OutputInfo) : Stmt → Except Unit OutputInfo
  | .ret (some (.call f _ _)) =>
    match f with
    | .name outputClass =>
      match dictLookup defs outputClass with
      | some odef => .ok ⟨outputClass, odef.fields⟩
      | none => .ok ⟨outputClass, []⟩
    | .attributeE (.name baseId) attr =>
      .ok ⟨baseId ++ "." ++ attr ++ "(...)", []⟩
    | .attributeE _ _ => .error ()
    | _ => .ok out
  | _ => .ok out

/-- The return-statement loop of `_process_invocation` (lines 231-245),
folded over the `invoke` body in walk order.  There is no `break`: a
later qualifying return overwrites an earlier one; a raise aborts the
loop (and, upstream, the module's second pass). -/
def foldReturns (defs : List (String × OutputDefinitionInfo)) :
    List Stmt → OutputInfo → Except Unit OutputInfo
  | [], out => .ok out
  | s :: rest, out =>
    match returnStep defs out s with
    | .error e => .error e
    | .ok out2 => foldReturns defs rest out2

/-- Embeds `DocExtractor._process_invocation` (lines 150-260).  Returns
`.ok none` when the class does not carry the `invocation` marker,
`.ok (some ni)` when a `NodeInfo` is appended, and `.error ()` when the
unguarded attribute access of line 244 raises. -/
def processInvocation (defs : List (String × OutputDefinitionInfo))
    (c : ClassDef) : Except Unit (Option NodeInfo) :=
  match findMarker "invocation" c.decorators with
  | none => .ok none
  | some (args, kws) =>
    let nm := match args with
      | a :: _ => getStringValue a
      | [] => ""
    let tctv := scanInvKeywords kws "" "" [] ""
    let ds := extractDocstring c.body
    let inputs := extractInputs c.body
    match findInvoke c.body with
    | none =>
      .ok (some ⟨nm, tctv.1, ds.1, ds.2, tctv.2.1, tctv.2.2.1, tctv.2.2.2,
        inputs, ⟨"", []⟩⟩)
    | some invokeBody =>
      match foldReturns defs invokeBody ⟨"", []⟩ with
      | .error e => .error e
      | .ok output =>
        .ok (some ⟨nm, tctv.1, ds.1, ds.2, tctv.2.1, tctv.2.2.1, tctv.2.2.2,
          inputs, output⟩)

/-- Embeds `DocExtractor._process_output_definition` (lines 121-148). -/
def processOutputDefinition (defs : List (String × OutputDefinitionInfo))
    (c : ClassDef) : List (String × OutputDefinitionInfo) :=
  match findMarker "invocation_output" c.decorators with
  | none => defs
  | some _ => dictInsert defs c.name ⟨c.name, c.body.filterMap extractOdefField⟩

/-- Embeds `DocExtractor._process_function` (lines 262-275). -/
def processFunction (nm : String) (body : List Stmt) : FunctionInfo :=
  match body with
  | .exprStmt (.constant (.strV s)) :: _ =>
    let d := s.trim
    if d = "" then ⟨nm, ""⟩
    else ⟨nm, ((d.splitOn "\n").headD "").trim⟩
  | _ => ⟨nm, ""⟩

/-- First pass of `_process_file` (lines 106-108): register every
output-definition class of the module. -/
def pass1 (defs : List (String × OutputDefinitionInfo)) :
    List Decl → List (String × OutputDefinitionInfo)
  | [] => defs
  | .classDecl c :: rest => pass1 (processOutputDefinition defs c) rest
  | _ :: rest => pass1 defs rest

/-- Second pass of `_process_file` (lines 111-117): process invocation
classes and top-level functions.  An exception raised while processing a
class propagates to the `except` of line 118, so the remaining
declarations of the module are not visited: the state accumulated so far
is returned unchanged. -/
def pass2 (st : ExtractorState) : List Decl → ExtractorState
  | [] => st
  | .classDecl c :: rest =>
    match processInvocation st.output_defs c with
    | .error _ => st
    | .ok none => pass2 st rest
    | .ok (some ni) => pass2 { st with nodes := st.nodes ++ [ni] } rest
  | .funcDecl nm body :: rest =>
    pass2 { st with functions := st.functions ++ [processFunction nm body] } rest
  | .otherDecl :: rest => pass2 st rest

/-- Embeds `DocExtractor._process_file` (lines 100-119): a module that
failed to parse contributes nothing (the `except` prints a diagnostic and
returns); a parsed module runs the two passes. -/
def processFile (st : ExtractorState) (src : Source) : ExtractorState :=
  match src with
  | .invalid => st
  | .parsed decls =>
    pass2 { st with output_defs := pass1 st.output_defs decls } decls

/-- Python's `str.lower()`: lowercase every character. -/
def pyLower (s : String) : String := ⟨s.data.map Char.toLower⟩

/-- The sort key order of `NodeInfo.__lt__` (lines 25-27):
`self.title.lower() < other.title.lower()`, taken reflexively, i.e. the
total preorder `a.title.lower() <= b.title.lower()` that `list.sort()`
sorts by. -/
def nodeLe (a b : NodeInfo) : Prop := pyLower a.title ≤ pyLower b.title

instance : DecidableRel nodeLe := fun a b =>
  inferInstanceAs (Decidable (pyLower a.title ≤ pyLower b.title))

instance : IsTotal NodeInfo nodeLe :=
  ⟨fun a b => le_total (pyLower a.title) (pyLower b.title)⟩

instance : IsTrans NodeInfo nodeLe :=
  ⟨fun _ _ _ h1 h2 => le_trans h1 h2⟩

/-- Embeds `self.nodes.sort()` (line 98): Python's stable sort by `__lt__`,
embedded as the stable insertion sort over `nodeLe`. -/
def sortNodes (l : List NodeInfo) : List NodeInfo := l.insertionSort nodeLe

/-- The empty `DocExtractor` state built by `__init__` (lines 44-49). -/
def initState : ExtractorState := ⟨[], [], []⟩

/-- Embeds `DocExtractor.extract_docs` (lines 85-98) over the directory's
modules in filesystem enumeration order: process every module, then sort
the nodes. -/
def extractDocs (sources : List Source) : ExtractorState :=
  let st := sources.foldl processFile initState
  { st with nodes := sortNodes st.nodes }

/-! ## Predicates about the embedded program -/

/-- The expression shapes `_get_type_annotation` has a dedicated branch
for: simple names, subscripts, attribute accesses, constants, tuples, and
calls whose target is a simple name.  Everything else falls through to the
final `return "Any"`. -/
def typeRecognized : Expr → Bool
  | .name _ => true
  | .subscript _ _ => true
  | .attributeE _ _ => true
  | .constant _ => true
  | .tuple _ => true
  | .call (.name _) _ _ => true
  | _ => false

/-- The expression shapes `_get_default_value` has a dedicated branch for:
constants, simple names, list literals, dict literals, and calls whose
target is a simple name.  Everything else falls through to the final
`return "None"`. -/
def defaultRecognized : Expr → Bool
  | .constant _ => true
  | .name _ => true
  | .listE _ => true
  | .dictE _ _ => true
  | .call (.name _) _ _ => true
  | _ => false

/-- A statement is a `return` of a direct call expression (the only
statement shape the output-resolution loop inspects). -/
def isRetCall : Stmt → Bool
  | .ret (some (.call _ _ _)) => true
  | _ => false

/-- A statement on which `returnStep` raises: a `return` of a call whose
target is an attribute access whose base is not a simple name. -/
def badStmt : Stmt → Bool
  | .ret (some (.call (.attributeE (.name _) _) _ _)) => false
  | .ret (some (.call (.attributeE _ _) _ _)) => true
  | _ => false

/-- An `invoke` body contains a statement on which the output-resolution
loop raises. -/
def containsBadReturn (stmts : List Stmt) : Bool := stmts.any badStmt

/-- A class on which `_process_invocation` raises: it carries the
`invocation` marker, has an `invoke` method, and that method's body
contains a bad return statement. -/
def badClass (c : ClassDef) : Bool :=
  match findMarker "invocation" c.decorators with
  | none => false
  | some _ =>
    match findInvoke c.body with
    | none => false
    | some fb => containsBadReturn fb

/-- A declaration is a class carrying the `invocation` marker. -/
def isMarkedDecl : Decl → Bool
  | .classDecl c => (findMarker "invocation" c.decorators).isSome
  | _ => false

/-- The number of top-level class declarations of a module carrying the
`invocation` marker. -/
def countMarked (m : Module) : Nat := m.countP isMarkedDecl

/-- A declaration on which the second pass raises. -/
def declBad : Decl → Bool
  | .classDecl c => badClass c
  | _ => false

/-- No keyword of the list is named `default`. -/
def noDefaultKw (kws : List (Option String × Expr)) : Bool :=
  kws.all fun kv => kv.1 != some "default"

/-! ## A re-parser for rendered type expressions

Modelled from the spec: the re-parsing side of the round-trip property
(spec section 8).  The repository delegates parsing to Python's
`ast.parse` (Python >= 3.9 grammar), which is outside `src/`; this models
the fragment of Python's expression grammar the rendered type strings
live in — identifiers, subscripts with comma-separated parameter lists,
and parenthesized tuples.  As in Python >= 3.9, a subscript's slice is
the bare expression (a multi-parameter subscript gets a `tuple` slice,
never an `index` wrapper), and parentheses around an expression do not
change its structure. -/

/-- A character of a Python identifier. -/
def isIdentChar (c : Char) : Bool := c.isAlphanum || c = '_'

mutual

/-- Parse one expression of the fragment (fuel-bounded descent). -/
def parseAtom : Nat → List Char → Option (Expr × List Char)
  | 0, _ => none
  | fuel + 1, cs =>
    match cs with
    | '(' :: rest =>
      match parseExprList fuel rest ')' with
      | some ([e], rem) => some (e, rem)
      | some (elts, rem) => some (.tuple elts, rem)
      | none => none
    | _ =>
      let tok := cs.takeWhile isIdentChar
      let rest := cs.dropWhile isIdentChar
      if tok.isEmpty then none
      else
        match rest with
        | '[' :: rest2 =>
          match parseExprList fuel rest2 ']' with
          | some ([e], rem) => some (.subscript (.name (String.mk tok)) e, rem)
          | some (elts, rem) =>
            some (.subscript (.name (String.mk tok)) (.tuple elts), rem)
          | none => none
        | _ => some (.name (String.mk tok), rest)

/-- Parse a nonempty comma-separated expression list terminated by
`closer` (spaces after commas allowed), consuming the closer. -/
def parseExprList : Nat → List Char → Char → Option (List Expr × List Char)
  | 0, _, _ => none
  | fuel + 1, cs, closer =>
    match parseAtom fuel cs with
    | none => none
    | some (e, rest) =>
      match rest with
      | c :: rest2 =>
        if c = closer then some ([e], rest2)
        else if c = ',' then
          match parseExprList fuel (rest2.dropWhile (fun ch => ch = ' ')) closer with
          | some (elts, rem) => some (e :: elts, rem)
          | none => none
        else none
      | [] => none

end

/-- Parse a complete rendered type string of the fragment. -/
def parseTypeExpr (s : String) : Option Expr :=
  match parseAtom (s.length + 1) s.data with
  | some (e, []) => some e
  | _ => none

/-! ## Theorems -/

/-- C3: The expression renderer is total — both `_get_type_annotation`
and `_get_default_value` are total functions returning a string for every
syntax subtree (totality is by construction of `getTypeAnnot` and
`getDefaultValue`, and neither contains a raising operation) — and on
every expression shape without a dedicated branch the type renderer falls
back to `"Any"` and the default-value renderer falls back to `"None"`. -/
theorem renderer_fallback_total (e : Expr) :
    (typeRecognized e = false → getTypeAnnot e = "Any") ∧
    (defaultRecognized e = false → getDefaultValue e = "None") := by
  constructor <;> intro h
  · cases e <;> try rfl
    case call f args kws =>
      cases f <;> try rfl
      case name id => simp [typeRecognized] at h
    all_goals simp [typeRecognized] at h
  · cases e <;> try rfl
    case call f args kws =>
      cases f <;> try rfl
      case name id => simp [defaultRecognized] at h
    all_goals simp [defaultRecognized] at h

/-- Witness for C3 at the concrete unrecognized shape `otherE` (e.g. a
lambda expression). -/
theorem renderer_fallback_total_witness :
    getTypeAnnot Expr.otherE = "Any" ∧ getDefaultValue Expr.otherE = "None" :=
  ⟨(renderer_fallback_total Expr.otherE).1 rfl,
   (renderer_fallback_total Expr.otherE).2 rfl⟩

/-- C5: A syntactically broken module anywhere in the run is skipped
after its (logged) parse diagnostic: the extractor state produced with the
broken module present is exactly the state produced without it, so
extraction from all other modules proceeds unchanged and a parse failure
is never fatal. -/
theorem parse_error_skips_module (xs ys : List Source) :
    extractDocs (xs ++ Source.invalid :: ys) = extractDocs (xs ++ ys) := by
  unfold extractDocs
  rw [List.foldl_append, List.foldl_append, List.foldl_cons]
  rfl

/-- C8: On the AST Python >= 3.9 produces for a two-parameter
subscripted type (`Subscript` with a bare `Tuple` slice), the renderer
produces `"Base[(A, B)]"`, not `"Base[A, B]"` as claimed: the
`ast.Index` compatibility branch of lines 295-305 never fires, so the
tuple slice is rendered through the generic parenthesizing tuple rule of
line 315.  Re-parsing either string still yields the same structural
shape (parentheses around the tuple do not change the parse), so the
structural half of the round-trip holds, and on the legacy Python 3.8
`Index`-wrapped AST the claimed string is produced. -/
theorem subscript_tuple_render_roundtrip :
    getTypeAnnot (.subscript (.name "Base") (.tuple [.name "A", .name "B"]))
      = "Base[(A, B)]" ∧
    "Base[(A, B)]" ≠ "Base[A, B]" ∧
    parseTypeExpr "Base[A, B]"
      = some (.subscript (.name "Base") (.tuple [.name "A", .name "B"])) ∧
    parseTypeExpr "Base[(A, B)]"
      = some (.subscript (.name "Base") (.tuple [.name "A", .name "B"])) ∧
    getTypeAnnot (.subscript (.name "Base")
        (.index (.tuple [.name "A", .name "B"]))) = "Base[A, B]" :=
  ⟨rfl, by decide, rfl, rfl, rfl⟩

/-- Overwriting lookup: after `dictInsert d k v`, looking up `k` finds
`v`. -/
theorem dictLookup_dictInsert_self (d : List (String × OutputDefinitionInfo))
    (k : String) (v : OutputDefinitionInfo) :
    dictLookup (dictInsert d k v) k = some v := by
  induction d with
  | nil => simp [dictInsert, dictLookup]
  | cons kv t ih =>
    obtain ⟨k2, v2⟩ := kv
    by_cases hk : k2 = k <;> simp [dictInsert, dictLookup, hk, ih]

/-- Overwriting an existing key leaves the dict's key enumeration order
unchanged. -/
theorem dictInsert_keys_of_mem (d : List (String × OutputDefinitionInfo))
    (k : String) (v old : OutputDefinitionInfo)
    (h : dictLookup d k = some old) :
    (dictInsert d k v).map Prod.fst = d.map Prod.fst := by
  induction d with
  | nil => simp [dictLookup] at h
  | cons kv t ih =>
    obtain ⟨k2, v2⟩ := kv
    by_cases hk : k2 = k
    · simp [dictInsert, hk]
    · rw [dictLookup] at h
      simp only [hk, if_false] at h
      simp [dictInsert, hk, ih h]

/-- C7: Registering an output-definition class whose name is already
present in `self.output_defs` overwrites the stored record with the new
fields, while the dict's key enumeration order stays in
first-registration order (the duplicate key does not move). -/
theorem register_overwrite_keeps_order
    (defs : List (String × OutputDefinitionInfo)) (c : ClassDef)
    (mk : List Expr × List (Option String × Expr))
    (old : OutputDefinitionInfo)
    (hmark : findMarker "invocation_output" c.decorators = some mk)
    (hold : dictLookup defs c.name = some old) :
    dictLookup (processOutputDefinition defs c) c.name =
      some ⟨c.name, c.body.filterMap extractOdefField⟩ ∧
    (processOutputDefinition defs c).map Prod.fst = defs.map Prod.fst := by
  unfold processOutputDefinition
  rw [hmark]
  exact ⟨dictLookup_dictInsert_self defs c.name _,
    dictInsert_keys_of_mem defs c.name _ old hold⟩

/-- An output-definition class named like an already-registered one, used
to witness C7. -/
def dupOutClass : ClassDef :=
  ⟨"OutX", [.call (.name "invocation_output") [.constant (.strV "out_x")] []],
   [.annAssign (.name "w") (.name "Int")
      (some (.call (.name "OutputField") []
        [(some "description", .constant (.strV "width"))]))]⟩

/-- A registry holding an earlier registration of `OutX` and one other
name, used to witness C7. -/
def dupOutDefs : List (String × OutputDefinitionInfo) :=
  [("OutX", ⟨"OutX", []⟩), ("OutY", ⟨"OutY", []⟩)]

/-- Witness for C7: overwriting the earlier `OutX` registration replaces
its fields and keeps the key order `[OutX, OutY]`. -/
theorem register_overwrite_keeps_order_witness :
    dictLookup (processOutputDefinition dupOutDefs dupOutClass) "OutX" =
      some ⟨"OutX", [⟨"w", "Int", "width"⟩]⟩ ∧
    (processOutputDefinition dupOutDefs dupOutClass).map Prod.fst =
      ["OutX", "OutY"] := by
  have h := register_overwrite_keeps_order dupOutDefs dupOutClass
    ⟨[.constant (.strV "out_x")], []⟩ ⟨"OutX", []⟩ rfl rfl
  exact ⟨h.1, h.2⟩

/-- Fold-splitting for the input-keyword scan. -/
theorem scanInputKeywords_append (xs ys : List (Option String × Expr))
    (acc : String × String) :
    scanInputKeywords (xs ++ ys) acc =
      scanInputKeywords ys (scanInputKeywords xs acc) := by
  induction xs generalizing acc with
  | nil => rfl
  | cons kv rest ih =>
    obtain ⟨d, df⟩ := acc
    obtain ⟨arg, val⟩ := kv
    by_cases h1 : arg = some "description"
    · cases val <;> simp [scanInputKeywords, h1, ih]
    · by_cases h2 : arg = some "default" <;>
        simp [scanInputKeywords, h1, h2, ih]

/-- Without a `default` keyword the scan never touches the default
component of the accumulator. -/
theorem scanInputKeywords_snd (kws : List (Option String × Expr))
    (h : noDefaultKw kws = true) (acc : String × String) :
    (scanInputKeywords kws acc).2 = acc.2 := by
  induction kws generalizing acc with
  | nil => rfl
  | cons kv rest ih =>
    obtain ⟨d, df⟩ := acc
    obtain ⟨arg, val⟩ := kv
    rw [noDefaultKw, List.all_cons] at h
    simp only [Bool.and_eq_true, bne_iff_ne, ne_eq] at h
    by_cases h1 : arg = some "description"
    · cases val <;> simp [scanInputKeywords, h1] <;> exact ih h.2 _
    · simp [scanInputKeywords, h1, h.1]
      exact ih h.2 _

/-- C10: An explicit `default` keyword whose value is the literal
`None` renders to the string `"None"`, which is exactly the placeholder
initialized at line 192 when no `default` keyword is supplied: the
extracted input record is identical with and without the keyword, so a
default of `None` and the absence of a default are indistinguishable. -/
theorem default_none_matches_placeholder :
    getDefaultValue (.constant .noneV) = "None" ∧
    ∀ (target annot f : Expr) (args : List Expr)
      (kws : List (Option String × Expr)),
      noDefaultKw kws = true →
      extractInputField (.annAssign target annot (some (.call f args
          (kws ++ [(some "default", .constant .noneV)])))) =
        extractInputField (.annAssign target annot (some (.call f args kws))) := by
  refine ⟨rfl, ?_⟩
  intro target annot f args kws h
  have key : scanInputKeywords (kws ++ [(some "default", .constant .noneV)])
      ("", "None") = scanInputKeywords kws ("", "None") := by
    rw [scanInputKeywords_append]
    have hsnd := scanInputKeywords_snd kws h ("", "None")
    cases hp : scanInputKeywords kws ("", "None") with
    | mk d df =>
      rw [hp] at hsnd
      simp at hsnd
      subst hsnd
      simp [scanInputKeywords, getDefaultValue, pyStr]
  dsimp only [extractInputField]
  rw [key]

/-- Witness for C10 at a concrete field: `image: ImageField =
InputField(description="d", default=None)` versus the same without
`default=None`. -/
theorem default_none_matches_placeholder_witness :
    noDefaultKw [(some "description", Expr.constant (Const.strV "d"))] = true ∧
    extractInputField (.annAssign (.name "image") (.name "ImageField")
        (some (.call (.name "InputField") []
          [(some "description", .constant (.strV "d")),
           (some "default", .constant .noneV)]))) =
      extractInputField (.annAssign (.name "image") (.name "ImageField")
        (some (.call (.name "InputField") []
          [(some "description", .constant (.strV "d"))]))) :=
  ⟨by decide,
   default_none_matches_placeholder.2 (.name "image") (.name "ImageField")
     (.name "InputField") []
     [(some "description", .constant (.strV "d"))] (by decide)⟩

/-- The step function `returnStep` raises exactly on bad statements. -/
theorem returnStep_of_bad (defs : List (String × OutputDefinitionInfo))
    (out : OutputInfo) (s : Stmt) (h : badStmt s = true) :
    returnStep defs out s = .error () := by
  cases s <;> try simp [badStmt] at h
  case ret v =>
    cases v <;> try simp [badStmt] at h
    case some e =>
      cases e <;> try simp [badStmt] at h
      case call f a k =>
        cases f <;> try simp [badStmt] at h
        case attributeE b a2 =>
          cases b <;> try simp [badStmt] at h
          all_goals rfl

/-- On a statement that is not bad, `returnStep` succeeds. -/
theorem returnStep_ok_of_not_bad (defs : List (String × OutputDefinitionInfo))
    (out : OutputInfo) (s : Stmt) (h : badStmt s = false) :
    ∃ o, returnStep defs out s = .ok o := by
  cases s <;> try exact ⟨out, rfl⟩
  case ret v =>
    cases v <;> try exact ⟨out, rfl⟩
    case some e =>
      cases e <;> try exact ⟨out, rfl⟩
      case call f a k =>
        cases f <;> try exact ⟨out, rfl⟩
        case name n =>
          cases hd : dictLookup defs n with
          | none => exact ⟨⟨n, []⟩, by simp [returnStep, hd]⟩
          | some odef => exact ⟨⟨n, odef.fields⟩, by simp [returnStep, hd]⟩
        case attributeE b a2 =>
          cases b <;> try simp [badStmt] at h
          exact ⟨_, rfl⟩

/-- A statement that is not a return of a call leaves the output
unchanged. -/
theorem returnStep_of_not_retCall (defs : List (String × OutputDefinitionInfo))
    (out : OutputInfo) (s : Stmt) (h : isRetCall s = false) :
    returnStep defs out s = .ok out := by
  cases s <;> try rfl
  case ret v =>
    cases v <;> try rfl
    case some e =>
      cases e <;> try rfl
      case call f a k => simp [isRetCall] at h

/-- A body containing a bad return statement makes the whole
return-statement loop raise. -/
theorem foldReturns_error_of_bad (defs : List (String × OutputDefinitionInfo))
    (l : List Stmt) (out : OutputInfo) (h : containsBadReturn l = true) :
    foldReturns defs l out = .error () := by
  induction l generalizing out with
  | nil => simp [containsBadReturn] at h
  | cons s rest ih =>
    rw [foldReturns]
    cases hb : badStmt s with
    | true => rw [returnStep_of_bad defs out s hb]
    | false =>
      obtain ⟨o, ho⟩ := returnStep_ok_of_not_bad defs out s hb
      rw [ho]
      apply ih
      rw [containsBadReturn, List.any_cons] at h
      rw [hb] at h
      simpa [containsBadReturn] using h

/-- A body with no bad return statement makes the loop succeed. -/
theorem foldReturns_ok_of_not_bad (defs : List (String × OutputDefinitionInfo))
    (l : List Stmt) (out : OutputInfo) (h : containsBadReturn l = false) :
    ∃ o, foldReturns defs l out = .ok o := by
  induction l generalizing out with
  | nil => exact ⟨out, rfl⟩
  | cons s rest ih =>
    rw [containsBadReturn, List.any_cons] at h
    simp only [Bool.or_eq_false_iff] at h
    obtain ⟨o, ho⟩ := returnStep_ok_of_not_bad defs out s h.1
    rw [foldReturns, ho]
    exact ih o (by simpa [containsBadReturn] using h.2)

/-- Statements that are not return-calls are skipped by the loop. -/
theorem foldReturns_append_skip (defs : List (String × OutputDefinitionInfo))
    (b1 rest : List Stmt) (out : OutputInfo)
    (h : b1.all (fun s => !isRetCall s) = true) :
    foldReturns defs (b1 ++ rest) out = foldReturns defs rest out := by
  induction b1 generalizing out with
  | nil => rfl
  | cons s t ih =>
    rw [List.all_cons] at h
    simp only [Bool.and_eq_true, Bool.not_eq_true'] at h
    rw [List.cons_append, foldReturns, returnStep_of_not_retCall defs out s h.1]
    exact ih out h.2

/-- A body of non-return-call statements leaves the output unchanged. -/
theorem foldReturns_skip (defs : List (String × OutputDefinitionInfo))
    (l : List Stmt) (out : OutputInfo)
    (h : l.all (fun s => !isRetCall s) = true) :
    foldReturns defs l out = .ok out := by
  have := foldReturns_append_skip defs l [] out h
  rw [List.append_nil] at this
  rw [this]
  rfl

/-- A class without the `invocation` marker yields no record. -/
theorem processInvocation_not_marked (defs : List (String × OutputDefinitionInfo))
    (c : ClassDef) (hm : findMarker "invocation" c.decorators = none) :
    processInvocation defs c = .ok none := by
  unfold processInvocation
  rw [hm]

/-- Applying `_process_invocation` to a bad class raises, for every bad class, whatever the
registry holds. -/
theorem processInvocation_error_of_bad (defs : List (String × OutputDefinitionInfo))
    (c : ClassDef) (h : badClass c = true) :
    processInvocation defs c = .error () := by
  unfold badClass at h
  cases hm : findMarker "invocation" c.decorators with
  | none => rw [hm] at h; simp at h
  | some mk =>
    rw [hm] at h
    cases hi : findInvoke c.body with
    | none => rw [hi] at h; simp at h
    | some fb =>
      rw [hi] at h
      obtain ⟨args, kws⟩ := mk
      unfold processInvocation
      rw [hm, hi]
      dsimp only
      rw [foldReturns_error_of_bad defs fb ⟨"", []⟩ h]

/-- Applying `_process_invocation` to a marked class that is not bad appends
exactly one record. -/
theorem processInvocation_ok_some (defs : List (String × OutputDefinitionInfo))
    (c : ClassDef) (mk : List Expr × List (Option String × Expr))
    (hm : findMarker "invocation" c.decorators = some mk)
    (h : badClass c = false) :
    ∃ ni, processInvocation defs c = .ok (some ni) := by
  unfold badClass at h
  rw [hm] at h
  obtain ⟨args, kws⟩ := mk
  unfold processInvocation
  rw [hm]
  cases hi : findInvoke c.body with
  | none => exact ⟨_, rfl⟩
  | some fb =>
    rw [hi] at h
    obtain ⟨o, ho⟩ := foldReturns_ok_of_not_bad defs fb ⟨"", []⟩ h
    dsimp only
    rw [ho]
    exact ⟨_, rfl⟩

/-- An erroring class aborts the module's second pass: the state built
from the declarations before it is returned, and nothing after it is
visited. -/
theorem pass2_append_error (bad : ClassDef)
    (h : ∀ defs, processInvocation defs bad = .error ())
    (st : ExtractorState) (pre post : List Decl) :
    pass2 st (pre ++ Decl.classDecl bad :: post) = pass2 st pre := by
  induction pre generalizing st with
  | nil => simp [pass2, h st.output_defs]
  | cons d t ih =>
    cases d with
    | classDecl c =>
      rw [List.cons_append, pass2, pass2]
      cases processInvocation st.output_defs c with
      | error e => rfl
      | ok r =>
        cases r with
        | none => exact ih st
        | some ni => exact ih _
    | funcDecl nm b =>
      rw [List.cons_append, pass2, pass2]
      exact ih _
    | otherDecl =>
      rw [List.cons_append, pass2, pass2]
      exact ih st

/-- C9: A unit-of-work whose `invoke` method returns a call on an
attribute access with a non-simple-name base (e.g. `a.b.c(...)`) makes
`_process_invocation` raise (for every registry), and the exception is
caught only at the module level: the module's second pass stops at that
class, so every declaration of the module not yet visited produces no
record. -/
theorem bad_attribute_return_aborts_module
    (bad : ClassDef) (mk : List Expr × List (Option String × Expr))
    (fb : List Stmt)
    (hmark : findMarker "invocation" bad.decorators = some mk)
    (hinv : findInvoke bad.body = some fb)
    (hbad : containsBadReturn fb = true) :
    (∀ defs, processInvocation defs bad = .error ()) ∧
    ∀ (st : ExtractorState) (pre post : List Decl),
      pass2 st (pre ++ Decl.classDecl bad :: post) = pass2 st pre := by
  have hbc : badClass bad = true := by
    unfold badClass
    rw [hmark, hinv]
    exact hbad
  refine ⟨fun defs => processInvocation_error_of_bad defs bad hbc, ?_⟩
  intro st pre post
  exact pass2_append_error bad
    (fun defs => processInvocation_error_of_bad defs bad hbc) st pre post

/-- A unit-of-work class whose `invoke` returns `a.b.c()`, used for the
C9 witness and the C2 counterexample. -/
def cexBadClass : ClassDef :=
  ⟨"UnitBad", [.call (.name "invocation") [.constant (.strV "unit_bad")] []],
   [.functionDef "invoke" [] none
      [.ret (some (.call (.attributeE (.attributeE (.name "a") "b") "c") [] []))]]⟩

/-- A well-formed unit-of-work class, used for the C9 witness and the C2
counterexample. -/
def cexGoodClass : ClassDef :=
  ⟨"UnitGood", [.call (.name "invocation") [.constant (.strV "unit_good")] []],
   [.functionDef "invoke" [] none
      [.ret (some (.call (.name "SomeOutput") [] []))]]⟩

/-- Witness for C9: on a module holding the `a.b.c()` class followed by a
well-formed marked class, processing raises at the bad class and the
well-formed class contributes no record. -/
theorem bad_attribute_return_aborts_module_witness :
    processInvocation [] cexBadClass = .error () ∧
    pass2 initState [Decl.classDecl cexBadClass, Decl.classDecl cexGoodClass] =
      pass2 initState [] := by
  have h := bad_attribute_return_aborts_module cexBadClass
    ⟨[.constant (.strV "unit_bad")], []⟩
    [.ret (some (.call (.attributeE (.attributeE (.name "a") "b") "c") [] []))]
    rfl rfl rfl
  exact ⟨h.1 [], h.2 initState [] [Decl.classDecl cexGoodClass]⟩

/-- C6: A unit-of-work whose `invoke` method contains a return of a
call on `self.something` (an attribute access whose base is the simple
name `self`), among otherwise non-return-call statements, yields a record
whose output type is the literal string `"self.something(...)"` with an
empty field list, and no exception is raised. -/
theorem self_attribute_return_output
    (defs : List (String × OutputDefinitionInfo)) (c : ClassDef)
    (mk : List Expr × List (Option String × Expr))
    (b1 b2 : List Stmt) (attr : String) (cargs : List Expr)
    (ckws : List (Option String × Expr))
    (hmark : findMarker "invocation" c.decorators = some mk)
    (hinv : findInvoke c.body = some (b1 ++
      Stmt.ret (some (.call (.attributeE (.name "self") attr) cargs ckws)) :: b2))
    (h1 : b1.all (fun s => !isRetCall s) = true)
    (h2 : b2.all (fun s => !isRetCall s) = true) :
    ∃ ni, processInvocation defs c = .ok (some ni) ∧
      ni.output = ⟨"self." ++ attr ++ "(...)", []⟩ := by
  obtain ⟨args, kws⟩ := mk
  unfold processInvocation
  rw [hmark, hinv]
  dsimp only
  rw [foldReturns_append_skip defs b1 _ ⟨"", []⟩ h1, foldReturns]
  have hstep : returnStep defs ⟨"", []⟩
      (Stmt.ret (some (.call (.attributeE (.name "self") attr) cargs ckws))) =
      .ok ⟨"self." ++ attr ++ "(...)", []⟩ := rfl
  rw [hstep]
  dsimp only
  rw [foldReturns_skip defs b2 _ h2]
  exact ⟨_, rfl, rfl⟩

/-- A unit-of-work class whose `invoke` returns `self.build(...)`, used
for the C6 witness. -/
def selfRetClass : ClassDef :=
  ⟨"UnitSelf", [.call (.name "invocation") [.constant (.strV "unit_self")] []],
   [.functionDef "invoke" [] none
      [.ret (some (.call (.attributeE (.name "self") "build") [] []))]]⟩

/-- Witness for C6 at the concrete class returning `self.build(...)`. -/
theorem self_attribute_return_output_witness :
    ∃ ni, processInvocation [] selfRetClass = .ok (some ni) ∧
      ni.output = ⟨"self.build(...)", []⟩ :=
  self_attribute_return_output [] selfRetClass
    ⟨[.constant (.strV "unit_self")], []⟩ [] [] "build" [] []
    rfl rfl rfl rfl

/-- On a module whose declarations never raise, the second pass appends
exactly one record per marked class. -/
theorem pass2_nodes_length (decls : List Decl) (st : ExtractorState)
    (h : (decls.all fun d => !declBad d) = true) :
    (pass2 st decls).nodes.length = st.nodes.length + countMarked decls := by
  induction decls generalizing st with
  | nil => simp [pass2, countMarked]
  | cons d t ih =>
    rw [List.all_cons] at h
    simp only [Bool.and_eq_true, Bool.not_eq_true'] at h
    cases d with
    | classDecl c =>
      have hc : badClass c = false := h.1
      rw [pass2]
      cases hm : findMarker "invocation" c.decorators with
      | none =>
        rw [processInvocation_not_marked st.output_defs c hm]
        rw [ih st h.2]
        simp [countMarked, List.countP_cons, isMarkedDecl, hm]
      | some mk =>
        obtain ⟨ni, hni⟩ := processInvocation_ok_some st.output_defs c mk hm hc
        rw [hni]
        rw [ih _ h.2]
        simp [countMarked, List.countP_cons, isMarkedDecl, hm]
        omega
    | funcDecl nm b =>
      rw [pass2]
      rw [ih _ h.2]
      simp [countMarked, List.countP_cons, isMarkedDecl]
    | otherDecl =>
      rw [pass2]
      rw [ih st h.2]
      simp [countMarked, List.countP_cons, isMarkedDecl]

/-- Per-module version of the record count. -/
theorem processFile_nodes_length (st : ExtractorState) (m : Module)
    (h : (m.all fun d => !declBad d) = true) :
    (processFile st (.parsed m)).nodes.length =
      st.nodes.length + countMarked m := by
  unfold processFile
  exact pass2_nodes_length m _ h

/-- Directory-wide version of the record count. -/
theorem foldl_processFile_nodes_length (mods : List Module)
    (st : ExtractorState)
    (h : (mods.all fun m => m.all fun d => !declBad d) = true) :
    ((mods.map Source.parsed).foldl processFile st).nodes.length =
      st.nodes.length + (mods.map countMarked).sum := by
  induction mods generalizing st with
  | nil => simp
  | cons m t ih =>
    rw [List.all_cons] at h
    simp only [Bool.and_eq_true] at h
    simp only [List.map_cons, List.foldl_cons, List.sum_cons]
    rw [ih _ h.2, processFile_nodes_length st m h.1]
    omega

/-- C2 (amended): For every directory of syntactically valid modules
in which no class makes `_process_invocation` raise (no `invoke` method
returns a call on an attribute access with a non-simple-name base), the
number of `NodeInfo` records equals the number of class declarations
carrying the `invocation` marker across the whole directory. -/
theorem marked_class_count (mods : List Module)
    (h : (mods.all fun m => m.all fun d => !declBad d) = true) :
    (extractDocs (mods.map Source.parsed)).nodes.length =
      (mods.map countMarked).sum := by
  unfold extractDocs sortNodes
  dsimp only
  rw [(List.perm_insertionSort nodeLe _).length_eq]
  rw [foldl_processFile_nodes_length mods initState h]
  simp [initState]

/-- Witness for C2 (amended) on a one-module directory holding one marked
class. -/
theorem marked_class_count_witness :
    ([[Decl.classDecl cexGoodClass]].all fun m =>
        m.all fun d => !declBad d) = true ∧
    (extractDocs ([[Decl.classDecl cexGoodClass]].map Source.parsed)).nodes.length
      = ([[Decl.classDecl cexGoodClass]].map countMarked).sum :=
  ⟨by decide, marked_class_count [[Decl.classDecl cexGoodClass]] (by decide)⟩

/-- A module holding the `a.b.c()` class followed by a well-formed marked
class: the C2 counterexample module. -/
def cexModule : Module := [.classDecl cexBadClass, .classDecl cexGoodClass]

/-- Counterexample to C2 as stated: this syntactically valid module has
two classes carrying the `invocation` marker, yet extraction produces
zero records, because processing the first class raises (`return
a.b.c()`, line 244) and the exception aborts the module's second pass
before either class's record is appended. -/
theorem marked_class_count_cex :
    countMarked cexModule = 2 ∧
    (extractDocs [.parsed cexModule]).nodes.length = 0 := by decide

/-- A unit-of-work class whose `invoke` returns `OutputB()`, declared in
a module processed before the module defining `OutputB`. -/
def fwdUnitClass : ClassDef :=
  ⟨"UnitA",
   [.call (.name "invocation") [.constant (.strV "unit_a")]
      [(some "title", .constant (.strV "Unit A"))]],
   [.functionDef "invoke" [] none
      [.ret (some (.call (.name "OutputB") [] []))]]⟩

/-- The module referencing `OutputB`. -/
def fwdRefModule : Module := [.classDecl fwdUnitClass]

/-- The output-definition class `OutputB` with one documented field. -/
def outDefClass : ClassDef :=
  ⟨"OutputB",
   [.call (.name "invocation_output") [.constant (.strV "out_b")] []],
   [.annAssign (.name "value") (.name "ImageField")
      (some (.call (.name "OutputField") []
        [(some "description", .constant (.strV "the image"))]))]⟩

/-- The module defining `OutputB`. -/
def outDefModule : Module := [.classDecl outDefClass]

/-- C1: Output-definition visibility is per-file-forward but only
directory-backward, not global as claimed: with the referencing module
enumerated before the defining module, the unit-of-work's output keeps an
empty field list (the registry had not yet seen `OutputB` when the
module's second pass ran); with the defining module first, or with both
declarations in one module (the unit-of-work declared before the
output-definition), the fields resolve.  The same two modules thus
produce different records depending only on enumeration order, refuting
the claim that the registry is populated from all modules before any
unit-of-work is resolved. -/
theorem forward_reference_resolution :
    (extractDocs [.parsed fwdRefModule, .parsed outDefModule]).nodes.map
        (fun n => n.output) = [⟨"OutputB", []⟩] ∧
    (extractDocs [.parsed outDefModule, .parsed fwdRefModule]).nodes.map
        (fun n => n.output) =
      [⟨"OutputB", [⟨"value", "ImageField", "the image"⟩]⟩] ∧
    (extractDocs [.parsed (fwdRefModule ++ outDefModule)]).nodes.map
        (fun n => n.output) =
      [⟨"OutputB", [⟨"value", "ImageField", "the image"⟩]⟩] := by decide

/-- Inserting an element not satisfying `p` does not change the
`p`-filtered sublist. -/
theorem filter_orderedInsert_neg (p : NodeInfo → Bool) (a : NodeInfo)
    (l : List NodeInfo) (h : p a = false) :
    (l.orderedInsert nodeLe a).filter p = l.filter p := by
  induction l with
  | nil => simp [List.orderedInsert, h]
  | cons b t ih =>
    rw [List.orderedInsert]
    by_cases hr : nodeLe a b
    · rw [if_pos hr]
      simp [List.filter_cons, h]
    · rw [if_neg hr]
      simp [List.filter_cons, ih]

/-- Inserting an element satisfying `p` that is `nodeLe`-below every
`p`-element of `l` prepends it to the `p`-filtered sublist. -/
theorem filter_orderedInsert_pos (p : NodeInfo → Bool) (a : NodeInfo)
    (l : List NodeInfo) (hpa : p a = true)
    (hcls : ∀ b ∈ l, p b = true → nodeLe a b) :
    (l.orderedInsert nodeLe a).filter p = a :: l.filter p := by
  induction l with
  | nil => simp [List.orderedInsert, hpa]
  | cons b t ih =>
    rw [List.orderedInsert]
    by_cases hr : nodeLe a b
    · rw [if_pos hr]
      simp [List.filter_cons, hpa]
    · rw [if_neg hr]
      have hpb : p b = false := by
        cases hb : p b
        · rfl
        · exact absurd (hcls b (List.mem_cons_self _ _) hb) hr
      simp [List.filter_cons, hpb,
        ih (fun x hx hpx => hcls x (List.mem_cons_of_mem _ hx) hpx)]

/-- Stability of the insertion sort: the sublist of elements of one
`nodeLe`-equivalence class is preserved. -/
theorem filter_insertionSort (p : NodeInfo → Bool) (l : List NodeInfo)
    (hcls : ∀ x y, p x = true → p y = true → nodeLe x y) :
    (l.insertionSort nodeLe).filter p = l.filter p := by
  induction l with
  | nil => rfl
  | cons a t ih =>
    rw [List.insertionSort]
    cases hpa : p a with
    | false =>
      rw [filter_orderedInsert_neg p a _ hpa, ih]
      simp [List.filter_cons, hpa]
    | true =>
      rw [filter_orderedInsert_pos p a _ hpa
        (fun b _ hpb => hcls a b hpa hpb), ih]
      simp [List.filter_cons, hpa]

/-- C4: Finalization sorts the records into a permutation that is
ascending in the case-insensitive title order, the sort is stable (for
every case-folded title `k`, the records titled `k` appear in their
original insertion order), and in particular a record titled `"apple"`
always precedes one titled `"Banana"` regardless of declaration order. -/
theorem finalize_sort_spec :
    (∀ l : List NodeInfo,
      (sortNodes l).Perm l ∧
      List.Sorted nodeLe (sortNodes l) ∧
      ∀ k : String,
        (sortNodes l).filter (fun n => pyLower n.title == k) =
          l.filter (fun n => pyLower n.title == k)) ∧
    (∀ a b : NodeInfo, a.title = "apple" → b.title = "Banana" →
      sortNodes [a, b] = [a, b] ∧ sortNodes [b, a] = [a, b]) := by
  constructor
  · intro l
    refine ⟨List.perm_insertionSort nodeLe l,
      List.sorted_insertionSort nodeLe l, ?_⟩
    intro k
    apply filter_insertionSort
    intro x y hx hy
    have hx2 : pyLower x.title = k := by simpa using hx
    have hy2 : pyLower y.title = k := by simpa using hy
    unfold nodeLe
    rw [hx2, hy2]
  · intro a b ha hb
    have hab : nodeLe a b := by
      unfold nodeLe
      rw [ha, hb]
      exact String.le_iff_toList_le.mpr (by decide)
    have hba : ¬ nodeLe b a := by
      unfold nodeLe
      rw [ha, hb]
      exact not_le.mpr (String.lt_iff_toList_lt.mpr (by decide))
    constructor
    · simp [sortNodes, List.insertionSort, List.orderedInsert, hab]
    · simp [sortNodes, List.insertionSort, List.orderedInsert, hba]

/-- A record titled `apple`, for the C4 witness. -/
def appleNode : NodeInfo := ⟨"a", "apple", "", "", "", [], "", [], ⟨"", []⟩⟩

/-- A record titled `Banana`, for the C4 witness. -/
def bananaNode : NodeInfo := ⟨"b", "Banana", "", "", "", [], "", [], ⟨"", []⟩⟩

/-- Witness for C4: even declared in the order `[Banana, apple]`, the
sorted records place `apple` first. -/
theorem finalize_sort_spec_witness :
    sortNodes [bananaNode, appleNode] = [appleNode, bananaNode] :=
  (finalize_sort_spec.2 appleNode bananaNode rfl rfl).2

end NodeDocs
